import Mathlib

/-!
Verification development for the VRF oracle fulfillment service.

The queue side embeds the SQL operations of QueueDatabase
(src/database/mod.rs) as pure functions over a list of rows; the relayer
side embeds RelayerAccount (src/relayer/account.rs) and the scheduler skip
logic (src/relayer/scheduler.rs) as state-passing functions with explicit
Nat timestamps standing for Instant / NOW().
-/

namespace VRFOracle

/-- Status values allowed by the pending_requests schema. -/
inductive Status where
  | pending
  | processing
  | fulfilled
  | failed
  deriving DecidableEq, Repr

/-- One row of the zamaoracle_vrf_oracle.pending_requests table.  Timestamps
are Nat seconds; the 32-byte request_id is a Nat key. -/
structure Row where
  request_id : Nat
  contract_address : String
  network : String
  status : Status
  retry_count : Int
  max_retries : Int
  created_at : Nat
  updated_at : Nat
  processing_started_at : Option Nat
  fulfilled_at : Option Nat
  last_error : Option String
  deriving DecidableEq, Repr

/-- The table is a list of rows; the primary key invariant is stated
separately as UniqueIds. -/
abbrev Table := List Row

/-- Modelled from the spec: the migrations file is not under src, the spec
schema gives max_retries INT DEFAULT 5. -/
def defaultMaxRetries : Int := 5

/-- Lookup of the row with a given request_id (first match). -/
def getRow (t : Table) (rid : Nat) : Option Row :=
  t.find? (fun r => decide (r.request_id = rid))

/-- The row inserted by enqueue_request: the INSERT lists request_id,
contract_address, network and status, every other column takes its
schema default. -/
def freshRow (rid : Nat) (ca network : String) (now : Nat) : Row :=
  { request_id := rid
    contract_address := ca
    network := network
    status := Status.pending
    retry_count := 0
    max_retries := defaultMaxRetries
    created_at := now
    updated_at := now
    processing_started_at := none
    fulfilled_at := none
    last_error := none }

/-- Embeds QueueDatabase.enqueue_request: INSERT ... ON CONFLICT
(request_id) DO NOTHING. -/
def enqueue_request (rid : Nat) (ca network : String) (now : Nat) (t : Table) : Table :=
  if t.any (fun r => decide (r.request_id = rid)) then t
  else t ++ [freshRow rid ca network now]

/-- Embeds QueueDatabase.mark_fulfilled: UPDATE SET status=fulfilled,
updated_at=NOW() WHERE request_id = $1.  Note the SQL does not touch
fulfilled_at and has no guard on the current status. -/
def mark_fulfilled (rid : Nat) (now : Nat) (t : Table) : Table :=
  t.map (fun r =>
    if r.request_id = rid then
      { r with status := Status.fulfilled, updated_at := now }
    else r)

/-- Embeds QueueDatabase.mark_failed: UPDATE SET status = CASE WHEN
retry_count >= max_retries THEN failed ELSE pending END, last_error=$2,
processing_started_at=NULL, updated_at=NOW() WHERE request_id=$1. -/
def mark_failed (rid : Nat) (err : String) (now : Nat) (t : Table) : Table :=
  t.map (fun r =>
    if r.request_id = rid then
      { r with
          status := if r.retry_count ≥ r.max_retries then Status.failed else Status.pending
          last_error := some err
          processing_started_at := none
          updated_at := now }
    else r)

/-- Modelled from the spec: QueueStore.requeue is called from the
processor but its implementation is not under src.  The spec says it sets
status=pending and clears processing_started_at, leaving retry_count
unchanged. -/
def requeue_request (rid : Nat) (t : Table) : Table :=
  t.map (fun r =>
    if r.request_id = rid then
      { r with status := Status.pending, processing_started_at := none }
    else r)

/-- The WHERE clause of the dequeue SQL: status pending, or processing with
a lease older than 5 minutes (300 s), and retry_count < max_retries. -/
def eligible (now : Nat) (r : Row) : Bool :=
  (decide (r.status = Status.pending) ||
    (decide (r.status = Status.processing) &&
      (match r.processing_started_at with
       | some ts => decide (ts + 300 < now)
       | none => false))) &&
  decide (r.retry_count < r.max_retries)

/-- ORDER BY created_at ascending. -/
def byCreated (a b : Row) : Prop := a.created_at ≤ b.created_at

instance : DecidableRel byCreated :=
  fun a b => inferInstanceAs (Decidable (a.created_at ≤ b.created_at))

instance : IsTotal Row byCreated :=
  ⟨fun a b => Nat.le_total a.created_at b.created_at⟩

instance : IsTrans Row byCreated :=
  ⟨fun _ _ _ hab hbc => Nat.le_trans hab hbc⟩

/-- The SET clause of the dequeue SQL: status=processing,
processing_started_at=NOW(), retry_count=retry_count+1. -/
def leaseUpdate (now : Nat) (r : Row) : Row :=
  { r with
      status := Status.processing
      processing_started_at := some now
      retry_count := r.retry_count + 1 }

/-- The rows picked by the inner SELECT: eligible rows, ordered by
created_at, LIMIT n. -/
def dequeueSelected (n now : Nat) (t : Table) : List Row :=
  (List.insertionSort byCreated (t.filter (eligible now))).take n

/-- Modelled from the spec: QueueStore.dequeue_n.  src defines only the
LIMIT 1 variant dequeue_request; the n-row variant dequeue_requests that
the processor calls is not under src.  This follows the same SQL with
LIMIT n: the UPDATE applies to the selected request_ids and RETURNING
yields the updated rows. -/
def dequeue_n (n now : Nat) (t : Table) : List Row × Table :=
  let sel := dequeueSelected n now t
  let ids := sel.map Row.request_id
  (sel.map (leaseUpdate now),
   t.map (fun r => if r.request_id ∈ ids then leaseUpdate now r else r))

/-- Embeds QueueDatabase.dequeue_request: the LIMIT 1 instance of the
dequeue SQL, returning at most one row. -/
def dequeue_request (now : Nat) (t : Table) : Option Row × Table :=
  ((dequeue_n 1 now t).1.head?, (dequeue_n 1 now t).2)

/-- The QueueStore operations named by the claims. -/
inductive QueueOp where
  | enqueue (rid : Nat) (ca network : String)
  | dequeue (n : Nat)
  | markFulfilled (rid : Nat)
  | markFailed (rid : Nat) (err : String)
  | requeue (rid : Nat)
  deriving DecidableEq, Repr

/-- One QueueStore operation applied at wall time now. -/
def applyOp (now : Nat) (op : QueueOp) (t : Table) : Table :=
  match op with
  | QueueOp.enqueue rid ca network => enqueue_request rid ca network now t
  | QueueOp.dequeue n => (dequeue_n n now t).2
  | QueueOp.markFulfilled rid => mark_fulfilled rid now t
  | QueueOp.markFailed rid err => mark_failed rid err now t
  | QueueOp.requeue rid => requeue_request rid t

/-- A sequence of timestamped QueueStore operations. -/
def applyOps (ops : List (Nat × QueueOp)) (t : Table) : Table :=
  ops.foldl (fun acc p => applyOp p.1 p.2 acc) t

/-- Primary key invariant of the table. -/
abbrev UniqueIds (t : Table) : Prop :=
  t.Pairwise (fun a b => a.request_id ≠ b.request_id)

/-- The retry bound invariant of claim C5. -/
abbrev RetryInv (t : Table) : Prop :=
  ∀ r ∈ t, r.retry_count ≤ r.max_retries

/-- Terminal statuses. -/
abbrev Terminal (s : Status) : Prop :=
  s = Status.fulfilled ∨ s = Status.failed

/-- Embeds AccountState of src/relayer/account.rs.  Instants are Nat
seconds, pending_tx_count is Int so that the non-negativity of the
counter is a statement rather than a consequence of the carrier type. -/
structure AccountState where
  last_balance_check : Option Nat
  cached_balance : Nat
  pending_tx_count : Int
  last_failure : Option Nat
  total_transactions : Nat
  total_failures : Nat
  deriving DecidableEq, Repr

/-- The balance cache test of is_available: refresh when the last check is
more than 60 s old or never happened. -/
def needsBalanceRefresh (now : Nat) (s : AccountState) : Bool :=
  match s.last_balance_check with
  | some t => decide (60 < now - t)
  | none => true

/-- The state after the conditional update_balance call inside
is_available: the cache is overwritten from RPC when stale. -/
def refreshedState (now rpcBalance : Nat) (s : AccountState) : AccountState :=
  if needsBalanceRefresh now s then
    { s with cached_balance := rpcBalance, last_balance_check := some now }
  else s

/-- The final balance comparison of is_available. -/
def balanceCheck (minGas : Nat) (s2 : AccountState) : Bool × AccountState :=
  if s2.cached_balance < minGas then (false, s2) else (true, s2)

/-- The part of is_available after the failure cooldown check: pending
transaction cap, then balance with the 60 s cache refresh. -/
def availAfterCooldown (now rpcBalance : Nat) (threshold : Int) (minGas : Nat)
    (s : AccountState) : Bool × AccountState :=
  if s.pending_tx_count ≥ threshold then (false, s)
  else balanceCheck minGas (refreshedState now rpcBalance s)

/-- Embeds RelayerAccount.is_available.  rpcBalance is the value the
provider would return for get_balance were the cache refreshed; minGas is
the min_gas_balance field of the account. -/
def is_available (now rpcBalance : Nat) (threshold : Int) (minGas : Nat)
    (s : AccountState) : Bool × AccountState :=
  match s.last_failure with
  | some lf =>
    if now - lf < 30 then (false, s)
    else availAfterCooldown now rpcBalance threshold minGas { s with last_failure := none }
  | none => availAfterCooldown now rpcBalance threshold minGas s

/-- The balance that the availability decision reads: the RPC value when
the cache is stale or was never filled, the cached value otherwise. -/
def effectiveBalance (now rpcBalance : Nat) (s : AccountState) : Nat :=
  if needsBalanceRefresh now s then rpcBalance else s.cached_balance

/-- Embeds RelayerAccount.mark_transaction_sent. -/
def mark_transaction_sent (s : AccountState) : AccountState :=
  { s with
      pending_tx_count := s.pending_tx_count + 1
      total_transactions := s.total_transactions + 1 }

/-- Embeds RelayerAccount.mark_transaction_confirmed: the decrement is
guarded by pending_tx_count > 0. -/
def mark_transaction_confirmed (s : AccountState) : AccountState :=
  if 0 < s.pending_tx_count then
    { s with pending_tx_count := s.pending_tx_count - 1 }
  else s

/-- Embeds RelayerAccount.mark_transaction_failed: guarded decrement, then
sets last_failure and bumps total_failures. -/
def mark_transaction_failed (now : Nat) (s : AccountState) : AccountState :=
  let s1 :=
    if 0 < s.pending_tx_count then
      { s with pending_tx_count := s.pending_tx_count - 1 }
    else s
  { s1 with last_failure := some now, total_failures := s1.total_failures + 1 }

/-- The three transaction-tracking operations of RelayerAccount. -/
inductive RelayerOp where
  | sent
  | confirmed
  | failed
  deriving DecidableEq, Repr

/-- One tracking operation applied at wall time now. -/
def applyRelayerOp (now : Nat) (op : RelayerOp) (s : AccountState) : AccountState :=
  match op with
  | RelayerOp.sent => mark_transaction_sent s
  | RelayerOp.confirmed => mark_transaction_confirmed s
  | RelayerOp.failed => mark_transaction_failed now s

/-- A sequence of timestamped tracking operations. -/
def applyRelayerOps (ops : List (Nat × RelayerOp)) (s : AccountState) : AccountState :=
  ops.foldl (fun acc p => applyRelayerOp p.1 p.2 acc) s

/-- The skip reasons of src/relayer/mod.rs. -/
inductive SkipReason where
  | insufficientGas
  | pendingTransaction
  | recentFailure
  deriving DecidableEq, Repr

/-- Embeds Relayer.determine_skip_reason of src/relayer/scheduler.rs: the
function ignores the account and always returns PendingTransaction. -/
def determine_skip_reason (_s : AccountState) : SkipReason :=
  SkipReason.pendingTransaction

/-- The reason recorded by the Ok(false) arm of next_available_batch: when
is_available returns false the metric carries determine_skip_reason of the
account. -/
def recordedSkipReason (now rpcBalance : Nat) (threshold : Int) (minGas : Nat)
    (s : AccountState) : Option SkipReason :=
  if (is_available now rpcBalance threshold minGas s).1 then none
  else some (determine_skip_reason s)

/-- The failure cooldown test of is_available. -/
def cooldownActive (now : Nat) (s : AccountState) : Bool :=
  match s.last_failure with
  | some lf => decide (now - lf < 30)
  | none => false

/-- Follows the words of the spec, for comparison with recordedSkipReason:
the skip reason matching the actual cause of unavailability, in the order
the availability checks run: recent_failure for an active 30 s cooldown,
pending_transaction for a pending count at or above the threshold,
insufficient_gas for a balance below min_gas_balance. -/
def specSkipReason (now rpcBalance : Nat) (threshold : Int) (minGas : Nat)
    (s : AccountState) : Option SkipReason :=
  if cooldownActive now s then some SkipReason.recentFailure
  else if s.pending_tx_count ≥ threshold then some SkipReason.pendingTransaction
  else if effectiveBalance now rpcBalance s < minGas then some SkipReason.insufficientGas
  else none

/-- Big-endian byte expansion of a value into a fixed number of bytes. -/
def beBytes : Nat → Nat → List Nat
  | 0, _ => []
  | k + 1, v => beBytes k (v / 256) ++ [v % 256]

/-- One 32-byte ABI word. -/
def word (v : Nat) : List Nat := beBytes 32 (v % 2 ^ 256)

/-- ABI values appearing in the fulfillRandomness call. -/
inductive AbiValue where
  | bytes32 (v : Nat)
  | uint256 (v : Nat)
  | dynBytes (bs : List Nat)
  deriving DecidableEq, Repr

/-- Zero padding of a dynamic byte string to a multiple of 32 bytes. -/
def pad32 (bs : List Nat) : List Nat :=
  bs ++ List.replicate ((32 - bs.length % 32) % 32) 0

/-- Tail encoding of an ABI value: empty for static types, length word
plus padded bytes for a dynamic byte string. -/
def tailEncoding : AbiValue → List Nat
  | AbiValue.dynBytes bs => word bs.length ++ pad32 bs
  | _ => []

/-- Head encoding of an ABI value: the value word for static types, the
offset word for a dynamic byte string. -/
def headEncoding (headsLen tailsSoFar : Nat) : AbiValue → List Nat
  | AbiValue.bytes32 v => word v
  | AbiValue.uint256 v => word v
  | AbiValue.dynBytes _ => word (headsLen + tailsSoFar)

/-- Heads and tails of the standard ABI tuple encoding. -/
def encodeTupleAux (headsLen : Nat) : Nat → List AbiValue → List Nat × List Nat
  | _, [] => ([], [])
  | tailsSoFar, v :: vs =>
    let h := headEncoding headsLen tailsSoFar v
    let tl := tailEncoding v
    let rest := encodeTupleAux headsLen (tailsSoFar + tl.length) vs
    (h ++ rest.1, tl ++ rest.2)

/-- Standard ABI encoding of an argument tuple: heads then tails, offsets
relative to the start of the tuple. -/
def encodeTuple (vs : List AbiValue) : List Nat :=
  (encodeTupleAux (32 * vs.length) 0 vs).1 ++ (encodeTupleAux (32 * vs.length) 0 vs).2

/-- Embeds the argument list of the fulfillRandomnessCall built in
src/oracle/mod.rs: the sol interface declares fulfillRandomness(bytes32
requestId, uint256 randomness, bytes proof) and the call passes an empty
proof. -/
def fulfillRandomnessArgs (requestId randomness : Nat) : List AbiValue :=
  [AbiValue.bytes32 requestId, AbiValue.uint256 randomness, AbiValue.dynBytes []]

/-- The solidity signature string of the declared interface, from which
the 4-byte selector is derived. -/
def fulfillRandomnessSig : String := "fulfillRandomness(bytes32,uint256,bytes)"

/-- The argument portion of the call data produced by abi_encode on the
fulfillRandomnessCall of src/oracle/mod.rs (everything after the 4-byte
selector). -/
def fulfillRandomnessBody (requestId randomness : Nat) : List Nat :=
  encodeTuple (fulfillRandomnessArgs requestId randomness)

/-- Follows the words of the spec, for comparison: fulfillRandomness with
exactly the two parameters requestId and randomness. -/
def specFulfillRandomnessArgs (requestId randomness : Nat) : List AbiValue :=
  [AbiValue.bytes32 requestId, AbiValue.uint256 randomness]

/-- Follows the words of the spec, for comparison: the two-parameter
signature. -/
def specFulfillRandomnessSig : String := "fulfillRandomness(bytes32,uint256)"

/-- Follows the words of the spec, for comparison: the argument encoding
of the two-parameter call. -/
def specFulfillRandomnessBody (requestId randomness : Nat) : List Nat :=
  encodeTuple (specFulfillRandomnessArgs requestId randomness)

/-- A concrete pending row used in concrete instances of the theorems. -/
def sampleRow : Row :=
  { request_id := 1
    contract_address := "0xc1"
    network := "local"
    status := Status.pending
    retry_count := 0
    max_retries := 5
    created_at := 10
    updated_at := 10
    processing_started_at := none
    fulfilled_at := none
    last_error := none }

/-- A concrete account state used in concrete instances of the theorems:
fresh balance check, zero balance, no pending sends, no failure. -/
def sampleAccount : AccountState :=
  { last_balance_check := some 100
    cached_balance := 0
    pending_tx_count := 0
    last_failure := none
    total_transactions := 0
    total_failures := 0 }


theorem getRow_map_of_id (g : Row → Row)
    (hg : ∀ r, (g r).request_id = r.request_id) (t : Table) (rid : Nat) :
    getRow (t.map g) rid = (getRow t rid).map g := by
  induction t with
  | nil => rfl
  | cons a l ih =>
    simp only [List.map_cons, getRow] at ih ⊢
    by_cases h : a.request_id = rid
    · rw [List.find?_cons_of_pos _ (by simp [hg, h]),
        List.find?_cons_of_pos _ (by simp [h])]
      rfl
    · rw [List.find?_cons_of_neg _ (by simp [hg, h]),
        List.find?_cons_of_neg _ (by simp [h])]
      exact ih

theorem getRow_eq_some {t : Table} {rid : Nat} {r : Row}
    (h : getRow t rid = some r) : r ∈ t ∧ r.request_id = rid := by
  refine ⟨List.mem_of_find?_eq_some h, ?_⟩
  have hsome := List.find?_some h
  exact of_decide_eq_true hsome

theorem getRow_mark_fulfilled {t : Table} {rid : Nat} {r : Row} (now : Nat)
    (h : getRow t rid = some r) :
    getRow (mark_fulfilled rid now t) rid =
      some { r with status := Status.fulfilled, updated_at := now } := by
  have hg : ∀ x : Row,
      ((if x.request_id = rid then
        { x with status := Status.fulfilled, updated_at := now } else x) : Row).request_id =
        x.request_id := by
    intro x; by_cases hx : x.request_id = rid <;> simp [hx]
  rw [mark_fulfilled, getRow_map_of_id _ hg, h]
  simp [(getRow_eq_some h).2]

theorem getRow_mark_failed {t : Table} {rid : Nat} {r : Row} (err : String) (now : Nat)
    (h : getRow t rid = some r) :
    getRow (mark_failed rid err now t) rid =
      some { r with
        status := if r.retry_count ≥ r.max_retries then Status.failed else Status.pending
        last_error := some err
        processing_started_at := none
        updated_at := now } := by
  have hg : ∀ x : Row,
      ((if x.request_id = rid then
        { x with
            status := if x.retry_count ≥ x.max_retries then Status.failed else Status.pending
            last_error := some err
            processing_started_at := none
            updated_at := now } else x) : Row).request_id = x.request_id := by
    intro x; by_cases hx : x.request_id = rid <;> simp [hx]
  rw [mark_failed, getRow_map_of_id _ hg, h]
  simp [(getRow_eq_some h).2]

theorem getRow_requeue {t : Table} {rid : Nat} {r : Row}
    (h : getRow t rid = some r) :
    getRow (requeue_request rid t) rid =
      some { r with status := Status.pending, processing_started_at := none } := by
  have hg : ∀ x : Row,
      ((if x.request_id = rid then
        { x with status := Status.pending, processing_started_at := none } else x) :
        Row).request_id = x.request_id := by
    intro x; by_cases hx : x.request_id = rid <;> simp [hx]
  rw [requeue_request, getRow_map_of_id _ hg, h]
  simp [(getRow_eq_some h).2]

theorem leaseUpdate_id (now : Nat) (r : Row) :
    (leaseUpdate now r).request_id = r.request_id := rfl

theorem dequeue_fst_eq (n now : Nat) (t : Table) :
    (dequeue_n n now t).1 = (dequeueSelected n now t).map (leaseUpdate now) := rfl

theorem dequeue_snd_eq (n now : Nat) (t : Table) :
    (dequeue_n n now t).2 = t.map (fun r =>
      if r.request_id ∈ (dequeueSelected n now t).map Row.request_id then
        leaseUpdate now r else r) := rfl

theorem mem_dequeueSelected {n now : Nat} {t : Table} {x : Row}
    (h : x ∈ dequeueSelected n now t) : x ∈ t ∧ eligible now x = true := by
  have h1 : x ∈ List.insertionSort byCreated (t.filter (eligible now)) :=
    List.mem_of_mem_take h
  have h2 : x ∈ t.filter (eligible now) :=
    (List.perm_insertionSort byCreated _).mem_iff.mp h1
  exact List.mem_filter.mp h2

theorem eligible_iff (now : Nat) (r : Row) :
    eligible now r = true ↔
      ((r.status = Status.pending ∨
        (r.status = Status.processing ∧
          ∃ ts, r.processing_started_at = some ts ∧ ts + 300 < now)) ∧
       r.retry_count < r.max_retries) := by
  unfold eligible
  cases hps : r.processing_started_at <;> simp [hps]

theorem dequeue_returned_ids (n now : Nat) (t : Table) :
    ((dequeue_n n now t).1).map Row.request_id =
      (dequeueSelected n now t).map Row.request_id := by
  rw [dequeue_fst_eq, List.map_map]
  rfl

theorem dequeue_fst_length (n now : Nat) (t : Table) :
    (dequeue_n n now t).1.length ≤ n := by
  rw [dequeue_fst_eq]
  unfold dequeueSelected
  simpa using List.length_take_le n _

theorem dequeue_fst_mem {n now : Nat} {t : Table} {x : Row}
    (hx : x ∈ (dequeue_n n now t).1) :
    ∃ r0, r0 ∈ t ∧ eligible now r0 = true ∧ x = leaseUpdate now r0 := by
  rw [dequeue_fst_eq] at hx
  simp only [List.mem_map] at hx
  obtain ⟨r0, hr0, hxr⟩ := hx
  obtain ⟨hmem, helig⟩ := mem_dequeueSelected hr0
  exact ⟨r0, hmem, helig, hxr.symm⟩

theorem dequeue_fst_sorted (n now : Nat) (t : Table) :
    (dequeue_n n now t).1.Pairwise (fun a b => a.created_at ≤ b.created_at) := by
  rw [dequeue_fst_eq, List.pairwise_map]
  have hs : (List.insertionSort byCreated (t.filter (eligible now))).Pairwise byCreated :=
    List.sorted_insertionSort byCreated _
  have ht : (dequeueSelected n now t).Pairwise byCreated :=
    hs.sublist (List.take_sublist n _)
  exact ht.imp (fun h => h)

theorem dequeue_unchanged {n now : Nat} {t : Table} {r : Row} (hr : r ∈ t)
    (hid : r.request_id ∉ ((dequeue_n n now t).1).map Row.request_id) :
    r ∈ (dequeue_n n now t).2 := by
  rw [dequeue_returned_ids] at hid
  rw [dequeue_snd_eq]
  have heq : (if r.request_id ∈ (dequeueSelected n now t).map Row.request_id then
      leaseUpdate now r else r) = r := by simp [hid]
  exact heq ▸ List.mem_map_of_mem _ hr

theorem unique_same_id {t : Table} {a b : Row} (hu : UniqueIds t)
    (ha : a ∈ t) (hb : b ∈ t) (hid : a.request_id = b.request_id) : a = b := by
  by_contra hne
  exact (hu.forall (fun x y hxy => (Ne.symm hxy)) ha hb hne) hid

theorem terminal_not_selected {t : Table} {rid : Nat} {r : Row} {n now : Nat}
    (hu : UniqueIds t) (h : getRow t rid = some r) (ht : Terminal r.status) :
    rid ∉ (dequeueSelected n now t).map Row.request_id := by
  intro hmem
  obtain ⟨x, hx, hxid⟩ := List.mem_map.mp hmem
  obtain ⟨hxt, hxe⟩ := mem_dequeueSelected hx
  obtain ⟨hrt, hrid⟩ := getRow_eq_some h
  have hxr : x = r := unique_same_id hu hxt hrt (by rw [hxid, hrid])
  subst hxr
  rcases (eligible_iff now x).mp hxe with ⟨hst, _⟩
  rcases ht with hf | hf <;> rcases hst with hp | ⟨hp, _⟩ <;> rw [hf] at hp <;>
    exact absurd hp (by simp)

theorem getRow_dequeue_of_not_selected {t : Table} {rid : Nat} {r : Row} {n now : Nat}
    (h : getRow t rid = some r)
    (hns : rid ∉ (dequeueSelected n now t).map Row.request_id) :
    getRow ((dequeue_n n now t).2) rid = some r := by
  have hg : ∀ x : Row,
      ((if x.request_id ∈ (dequeueSelected n now t).map Row.request_id then
        leaseUpdate now x else x) : Row).request_id = x.request_id := by
    intro x
    by_cases hx : x.request_id ∈ (dequeueSelected n now t).map Row.request_id <;>
      simp [hx, leaseUpdate]
  have hcond : r.request_id ∉ (dequeueSelected n now t).map Row.request_id := by
    rw [(getRow_eq_some h).2]; exact hns
  rw [dequeue_snd_eq, getRow_map_of_id _ hg, h]
  show some (if r.request_id ∈ _ then _ else r) = some r
  rw [if_neg hcond]

theorem uniqueIds_map {t : Table} (g : Row → Row)
    (hg : ∀ r, (g r).request_id = r.request_id)
    (hu : UniqueIds t) : UniqueIds (t.map g) := by
  rw [UniqueIds, List.pairwise_map]
  exact hu.imp (fun h => by simpa [hg] using h)

theorem retryInv_map {t : Table} (g : Row → Row)
    (hg : ∀ r ∈ t, (g r).retry_count ≤ (g r).max_retries)
    : RetryInv (t.map g) := by
  intro x hx
  obtain ⟨y, hy, hxy⟩ := List.mem_map.mp hx
  exact hxy ▸ hg y hy

theorem cond_update_id (rid : Nat) (f : Row → Row)
    (hf : ∀ r, (f r).request_id = r.request_id) :
    ∀ r : Row, ((if r.request_id = rid then f r else r) : Row).request_id = r.request_id := by
  intro r
  by_cases h : r.request_id = rid <;> simp [h, hf]

theorem selected_eligible {n now : Nat} {t : Table} {r : Row}
    (hu : UniqueIds t) (hr : r ∈ t)
    (hid : r.request_id ∈ (dequeueSelected n now t).map Row.request_id) :
    eligible now r = true := by
  obtain ⟨x, hx, hxid⟩ := List.mem_map.mp hid
  obtain ⟨hxt, hxe⟩ := mem_dequeueSelected hx
  have hxr : x = r := unique_same_id hu hxt hr hxid
  exact hxr ▸ hxe

theorem applyOp_preserves (now : Nat) (op : QueueOp) (t : Table)
    (hu : UniqueIds t) (hr : RetryInv t) :
    UniqueIds (applyOp now op t) ∧ RetryInv (applyOp now op t) := by
  cases op with
  | enqueue rid ca network =>
    show UniqueIds (enqueue_request rid ca network now t) ∧
      RetryInv (enqueue_request rid ca network now t)
    unfold enqueue_request
    by_cases h : t.any (fun r => decide (r.request_id = rid)) = true
    · rw [if_pos h]
      exact ⟨hu, hr⟩
    · rw [if_neg h]
      have hall : ∀ x ∈ t, x.request_id ≠ rid := by
        intro x hx
        have := (List.any_eq_true).not.mp h
        push_neg at this
        have h2 := this x hx
        simpa using h2
      constructor
      · rw [UniqueIds, List.pairwise_append]
        refine ⟨hu, List.pairwise_singleton _ _, ?_⟩
        intro a ha b hb
        rw [List.mem_singleton] at hb
        subst hb
        exact hall a ha
      · intro x hx
        rcases List.mem_append.mp hx with hx | hx
        · exact hr x hx
        · rw [List.mem_singleton] at hx
          subst hx
          show (0 : Int) ≤ defaultMaxRetries
          decide
  | dequeue n =>
    show UniqueIds ((dequeue_n n now t).2) ∧ RetryInv ((dequeue_n n now t).2)
    rw [dequeue_snd_eq]
    have hg : ∀ r : Row,
        ((if r.request_id ∈ (dequeueSelected n now t).map Row.request_id then
          leaseUpdate now r else r) : Row).request_id = r.request_id := by
      intro r
      by_cases hc : r.request_id ∈ (dequeueSelected n now t).map Row.request_id <;>
        simp [hc, leaseUpdate]
    refine ⟨uniqueIds_map _ hg hu, retryInv_map _ ?_⟩
    intro r hrt
    by_cases hc : r.request_id ∈ (dequeueSelected n now t).map Row.request_id
    · have helig := selected_eligible hu hrt hc
      have hlt := ((eligible_iff now r).mp helig).2
      simp only [hc, if_true]
      show r.retry_count + 1 ≤ r.max_retries
      omega
    · simp only [hc, if_false]
      exact hr r hrt
  | markFulfilled rid =>
    show UniqueIds (mark_fulfilled rid now t) ∧ RetryInv (mark_fulfilled rid now t)
    refine ⟨uniqueIds_map _ (cond_update_id rid _ (fun r => rfl)) hu, retryInv_map _ ?_⟩
    intro r hrt
    by_cases hc : r.request_id = rid <;> simp only [hc, if_true, if_false] <;> exact hr r hrt
  | markFailed rid err =>
    show UniqueIds (mark_failed rid err now t) ∧ RetryInv (mark_failed rid err now t)
    refine ⟨uniqueIds_map _ (cond_update_id rid _ (fun r => rfl)) hu, retryInv_map _ ?_⟩
    intro r hrt
    by_cases hc : r.request_id = rid <;> simp only [hc, if_true, if_false] <;> exact hr r hrt
  | requeue rid =>
    show UniqueIds (requeue_request rid t) ∧ RetryInv (requeue_request rid t)
    refine ⟨uniqueIds_map _ (cond_update_id rid _ (fun r => rfl)) hu, retryInv_map _ ?_⟩
    intro r hrt
    by_cases hc : r.request_id = rid <;> simp only [hc, if_true, if_false] <;> exact hr r hrt

theorem applyOps_preserves (ops : List (Nat × QueueOp)) (t : Table)
    (hu : UniqueIds t) (hr : RetryInv t) :
    UniqueIds (applyOps ops t) ∧ RetryInv (applyOps ops t) := by
  induction ops generalizing t with
  | nil => exact ⟨hu, hr⟩
  | cons p ps ih =>
    have h := applyOp_preserves p.1 p.2 t hu hr
    exact ih _ h.1 h.2

theorem retry_proj_map (rid : Nat) (t : Table) (f : Row → Row)
    (hf : ∀ r, (f r).retry_count = r.retry_count) :
    (t.map (fun r => if r.request_id = rid then f r else r)).map Row.retry_count =
      t.map Row.retry_count := by
  rw [List.map_map]
  refine List.map_congr_left ?_
  intro r _
  by_cases h : r.request_id = rid <;> simp [h, hf]

theorem getRow_enqueue_none {t : Table} {rid : Nat} (ca network : String) (now : Nat)
    (h : getRow t rid = none) :
    getRow (enqueue_request rid ca network now t) rid = some (freshRow rid ca network now) ∧
    (enqueue_request rid ca network now t).countP (fun x => decide (x.request_id = rid)) = 1 := by
  have hall : ∀ x ∈ t, ¬(x.request_id = rid) := by
    intro x hx
    have := List.find?_eq_none.mp h x hx
    simpa using this
  have hany : t.any (fun r => decide (r.request_id = rid)) = false := by
    rw [List.any_eq_false]
    intro x hx
    simpa using hall x hx
  have hnot : ¬(t.any (fun r => decide (r.request_id = rid)) = true) := by
    rw [hany]; simp
  unfold enqueue_request
  rw [if_neg hnot]
  constructor
  · unfold getRow
    rw [List.find?_append, List.find?_eq_none.mpr (by intro x hx; simpa using hall x hx)]
    simp [freshRow]
  · rw [List.countP_append]
    have h0 : t.countP (fun x => decide (x.request_id = rid)) = 0 := by
      rw [List.countP_eq_zero]
      intro x hx
      simpa using hall x hx
    rw [h0]
    simp [freshRow, List.countP_cons]

theorem enqueue_some {t : Table} {rid : Nat} {r : Row} (ca network : String) (now : Nat)
    (h : getRow t rid = some r) :
    enqueue_request rid ca network now t = t := by
  have hmem := (getRow_eq_some h).1
  have hid := (getRow_eq_some h).2
  have hany : t.any (fun x => decide (x.request_id = rid)) = true := by
    rw [List.any_eq_true]
    exact ⟨r, hmem, by simpa using hid⟩
  unfold enqueue_request
  rw [if_pos hany]

theorem enqueue_twice (t : Table) (rid : Nat) (ca network : String) (now now2 : Nat) :
    enqueue_request rid ca network now2 (enqueue_request rid ca network now t) =
      enqueue_request rid ca network now t := by
  by_cases h : t.any (fun r => decide (r.request_id = rid)) = true
  · unfold enqueue_request
    simp only [if_pos h]
  · unfold enqueue_request
    rw [if_neg h]
    have hany2 : (t ++ [freshRow rid ca network now]).any
        (fun r => decide (r.request_id = rid)) = true := by
      rw [List.any_eq_true]
      exact ⟨freshRow rid ca network now, List.mem_append_right _ (List.mem_singleton.mpr rfl),
        by simp [freshRow]⟩
    rw [if_pos hany2]

theorem refreshed_cached (now rpc : Nat) (s : AccountState) :
    (refreshedState now rpc s).cached_balance = effectiveBalance now rpc s := by
  unfold refreshedState effectiveBalance
  split <;> rfl

theorem refreshed_pending (now rpc : Nat) (s : AccountState) :
    (refreshedState now rpc s).pending_tx_count = s.pending_tx_count := by
  unfold refreshedState
  split <;> rfl

theorem refreshed_failure (now rpc : Nat) (s : AccountState) :
    (refreshedState now rpc s).last_failure = s.last_failure := by
  unfold refreshedState
  split <;> rfl

theorem balanceCheck_fst (mg : Nat) (s2 : AccountState) :
    (balanceCheck mg s2).1 = true ↔ mg ≤ s2.cached_balance := by
  unfold balanceCheck
  by_cases h : s2.cached_balance < mg
  · rw [if_pos h]
    constructor
    · intro hfalse; simp at hfalse
    · intro hle; omega
  · rw [if_neg h]
    simp
    omega

theorem balanceCheck_failure (mg : Nat) (s2 : AccountState) :
    (balanceCheck mg s2).2.last_failure = s2.last_failure := by
  unfold balanceCheck
  split <;> rfl

theorem availAfterCooldown_fst (now rpc : Nat) (th : Int) (mg : Nat) (s : AccountState) :
    (availAfterCooldown now rpc th mg s).1 = true ↔
      (s.pending_tx_count < th ∧ mg ≤ effectiveBalance now rpc s) := by
  unfold availAfterCooldown
  by_cases hp : s.pending_tx_count ≥ th
  · rw [if_pos hp]
    constructor
    · intro hfalse; simp at hfalse
    · rintro ⟨h1, _⟩; exact absurd h1 (not_lt.mpr hp)
  · rw [if_neg hp]
    rw [balanceCheck_fst, refreshed_cached]
    simp [lt_of_not_ge hp]

theorem availAfterCooldown_keeps_failure (now rpc : Nat) (th : Int) (mg : Nat)
    (s : AccountState) :
    (availAfterCooldown now rpc th mg s).2.last_failure = s.last_failure := by
  unfold availAfterCooldown
  by_cases hp : s.pending_tx_count ≥ th
  · rw [if_pos hp]
  · rw [if_neg hp, balanceCheck_failure, refreshed_failure]

theorem is_available_some (now rpc : Nat) (th : Int) (mg : Nat) (s : AccountState)
    (lf : Nat) (hlf : s.last_failure = some lf) :
    is_available now rpc th mg s =
      if now - lf < 30 then (false, s)
      else availAfterCooldown now rpc th mg { s with last_failure := none } := by
  unfold is_available
  rw [hlf]

theorem is_available_none (now rpc : Nat) (th : Int) (mg : Nat) (s : AccountState)
    (hlf : s.last_failure = none) :
    is_available now rpc th mg s = availAfterCooldown now rpc th mg s := by
  unfold is_available
  rw [hlf]

theorem is_available_true_iff (now rpc : Nat) (th : Int) (mg : Nat) (s : AccountState) :
    (is_available now rpc th mg s).1 = true ↔
      ((∀ lf, s.last_failure = some lf → 30 ≤ now - lf) ∧
       s.pending_tx_count < th ∧ mg ≤ effectiveBalance now rpc s) := by
  cases hlf : s.last_failure with
  | none =>
    rw [is_available_none now rpc th mg s hlf, availAfterCooldown_fst]
    simp [hlf]
  | some lf =>
    rw [is_available_some now rpc th mg s lf hlf]
    by_cases hc : now - lf < 30
    · rw [if_pos hc]
      constructor
      · intro hfalse; simp at hfalse
      · rintro ⟨h1, _⟩
        exact absurd (h1 lf rfl) (by omega)
    · rw [if_neg hc, availAfterCooldown_fst]
      constructor
      · rintro ⟨h1, h2⟩
        exact ⟨fun lf2 hlf2 => by cases hlf2; omega, h1, h2⟩
      · rintro ⟨_, h1, h2⟩
        exact ⟨h1, h2⟩

theorem is_available_clears_failure (now rpc : Nat) (th : Int) (mg : Nat)
    (s : AccountState) (lf : Nat) (hlf : s.last_failure = some lf)
    (hold : 30 ≤ now - lf) :
    (is_available now rpc th mg s).2.last_failure = none := by
  rw [is_available_some now rpc th mg s lf hlf, if_neg (by omega),
    availAfterCooldown_keeps_failure]

theorem relayer_step_nonneg (now : Nat) (op : RelayerOp) (s : AccountState)
    (h : 0 ≤ s.pending_tx_count) : 0 ≤ (applyRelayerOp now op s).pending_tx_count := by
  cases op with
  | sent =>
    show 0 ≤ (mark_transaction_sent s).pending_tx_count
    unfold mark_transaction_sent
    show 0 ≤ s.pending_tx_count + 1
    omega
  | confirmed =>
    show 0 ≤ (mark_transaction_confirmed s).pending_tx_count
    unfold mark_transaction_confirmed
    by_cases hp : 0 < s.pending_tx_count
    · rw [if_pos hp]
      show 0 ≤ s.pending_tx_count - 1
      omega
    · rw [if_neg hp]
      exact h
  | failed =>
    show 0 ≤ (mark_transaction_failed now s).pending_tx_count
    unfold mark_transaction_failed
    by_cases hp : 0 < s.pending_tx_count <;> simp [hp] <;> omega

theorem fulfillRandomnessBody_eq (requestId randomness : Nat) :
    fulfillRandomnessBody requestId randomness =
      word requestId ++ word randomness ++ word 96 ++ word 0 := by
  simp [fulfillRandomnessBody, fulfillRandomnessArgs, encodeTuple, encodeTupleAux,
    headEncoding, tailEncoding, pad32]

/-- C1 counterexample: a row whose status is terminal is still mutated by
later operations.  On a table holding one fulfilled row, mark_fulfilled
changes the table (it refreshes updated_at), and mark_failed moves the
fulfilled row back to pending, contradicting the claim that no subsequent
QueueStore operation changes any field of a terminal row. -/
theorem terminal_mutation_cex :
    (getRow [{ sampleRow with status := Status.fulfilled }] 1).map Row.status =
      some Status.fulfilled ∧
    mark_fulfilled 1 20 [{ sampleRow with status := Status.fulfilled }] ≠
      [{ sampleRow with status := Status.fulfilled }] ∧
    (getRow (mark_failed 1 "boom" 20 [{ sampleRow with status := Status.fulfilled }]) 1).map
      Row.status = some Status.pending := by
  decide

/-- C1 (amended): dequeue never selects a terminal row and leaves it
unchanged, and enqueue of an existing request_id is a no-op; but
mark_fulfilled, mark_failed and requeue update the matching row
unconditionally, regardless of terminal status: mark_fulfilled on an
already-terminal row still sets status to fulfilled and refreshes
updated_at, mark_failed rewrites status, last_error, updated_at and clears
the lease, and requeue moves the row back to pending. -/
theorem terminal_rows_behavior (t : Table) (rid : Nat) (r : Row)
    (n now1 now2 now3 now4 : Nat) (ca network err : String)
    (hu : UniqueIds t) (h : getRow t rid = some r) (ht : Terminal r.status) :
    enqueue_request rid ca network now1 t = t ∧
    rid ∉ ((dequeue_n n now2 t).1).map Row.request_id ∧
    getRow ((dequeue_n n now2 t).2) rid = some r ∧
    getRow (mark_fulfilled rid now3 t) rid =
      some { r with status := Status.fulfilled, updated_at := now3 } ∧
    getRow (mark_failed rid err now4 t) rid =
      some { r with
        status := if r.retry_count ≥ r.max_retries then Status.failed else Status.pending
        last_error := some err
        processing_started_at := none
        updated_at := now4 } ∧
    getRow (requeue_request rid t) rid =
      some { r with status := Status.pending, processing_started_at := none } := by
  have hns := @terminal_not_selected t rid r n now2 hu h ht
  refine ⟨enqueue_some ca network now1 h, ?_, ?_, ?_, ?_, ?_⟩
  · rw [dequeue_returned_ids]
    exact hns
  · exact getRow_dequeue_of_not_selected h hns
  · exact getRow_mark_fulfilled now3 h
  · exact getRow_mark_failed err now4 h
  · exact getRow_requeue h

/-- C1 witness: the amended theorem applied to a table holding one failed
row. -/
theorem terminal_rows_behavior_witness :
    enqueue_request 1 "0xc1" "local" 21 [{ sampleRow with status := Status.failed }] =
      [{ sampleRow with status := Status.failed }] ∧
    getRow ((dequeue_n 3 22 [{ sampleRow with status := Status.failed }]).2) 1 =
      some { sampleRow with status := Status.failed } ∧
    getRow (mark_fulfilled 1 23 [{ sampleRow with status := Status.failed }]) 1 =
      some { sampleRow with status := Status.fulfilled, updated_at := 23 } := by
  have h := terminal_rows_behavior [{ sampleRow with status := Status.failed }] 1
    { sampleRow with status := Status.failed } 3 21 22 23 24 "0xc1" "local" "err"
    (by decide) (by decide) (by decide)
  refine ⟨h.1, h.2.2.1, ?_⟩
  have h4 := h.2.2.2.1
  simpa using h4

/-- C2 counterexample: mark_fulfilled leaves fulfilled_at untouched, so a
fulfilled row can have no fulfilled_at, contradicting the claim that
mark_fulfilled sets fulfilled_at to the current time. -/
theorem mark_fulfilled_fulfilled_at_cex :
    (getRow (mark_fulfilled 1 20 [sampleRow]) 1).map Row.status =
      some Status.fulfilled ∧
    (getRow (mark_fulfilled 1 20 [sampleRow]) 1).map Row.fulfilled_at = some none := by
  decide

/-- C2 (amended): for every existing row, mark_fulfilled sets status to
fulfilled and updated_at to the current time, and leaves every other
field, in particular fulfilled_at, unchanged; a fulfilled row therefore
need not have fulfilled_at set. -/
theorem mark_fulfilled_effect (t : Table) (rid now : Nat) (r : Row)
    (h : getRow t rid = some r) :
    getRow (mark_fulfilled rid now t) rid =
      some { r with status := Status.fulfilled, updated_at := now } ∧
    (getRow (mark_fulfilled rid now t) rid).map Row.fulfilled_at =
      some r.fulfilled_at := by
  refine ⟨getRow_mark_fulfilled now h, ?_⟩
  rw [getRow_mark_fulfilled now h]
  rfl

/-- C2 witness: the amended theorem applied to a singleton table. -/
theorem mark_fulfilled_effect_witness :
    getRow (mark_fulfilled 1 20 [sampleRow]) 1 =
      some { sampleRow with status := Status.fulfilled, updated_at := 20 } ∧
    (getRow (mark_fulfilled 1 20 [sampleRow]) 1).map Row.fulfilled_at = some none :=
  mark_fulfilled_effect [sampleRow] 1 20 sampleRow (by decide)

/-- C3: dequeue_n n returns at most n rows; every returned row is the
lease update of a row of the table that was pending or was processing
with a lease older than 5 minutes and had retry_count below max_retries
(so rows at or above the retry ceiling are excluded); returned rows carry
status processing, processing_started_at = now and retry_count
incremented by one; the returned list is ordered by created_at ascending;
rows whose request_id was not returned stay in the table unchanged. -/
theorem dequeue_n_spec (n now : Nat) (t : Table) (hn : 1 ≤ n) :
    (dequeue_n n now t).1.length ≤ n ∧
    (∀ x ∈ (dequeue_n n now t).1, ∃ r0,
      r0 ∈ t ∧
      (r0.status = Status.pending ∨
        (r0.status = Status.processing ∧
          ∃ ts, r0.processing_started_at = some ts ∧ ts + 300 < now)) ∧
      r0.retry_count < r0.max_retries ∧
      x = leaseUpdate now r0 ∧
      x.status = Status.processing ∧
      x.processing_started_at = some now ∧
      x.retry_count = r0.retry_count + 1) ∧
    (dequeue_n n now t).1.Pairwise (fun a b => a.created_at ≤ b.created_at) ∧
    (∀ r ∈ t, r.request_id ∉ ((dequeue_n n now t).1).map Row.request_id →
      r ∈ (dequeue_n n now t).2) := by
  refine ⟨dequeue_fst_length n now t, ?_, dequeue_fst_sorted n now t, ?_⟩
  · intro x hx
    obtain ⟨r0, hmem, helig, hxeq⟩ := dequeue_fst_mem hx
    obtain ⟨hst, hlt⟩ := (eligible_iff now r0).mp helig
    subst hxeq
    exact ⟨r0, hmem, hst, hlt, rfl, rfl, rfl, rfl⟩
  · intro r hr hid
    exact dequeue_unchanged hr hid

/-- C3 witness: the theorem applied to a singleton pending table with
n = 2. -/
theorem dequeue_n_spec_witness :
    (dequeue_n 2 400 [sampleRow]).1.length ≤ 2 ∧
    (∀ x ∈ (dequeue_n 2 400 [sampleRow]).1, ∃ r0,
      r0 ∈ [sampleRow] ∧
      (r0.status = Status.pending ∨
        (r0.status = Status.processing ∧
          ∃ ts, r0.processing_started_at = some ts ∧ ts + 300 < 400)) ∧
      r0.retry_count < r0.max_retries ∧
      x = leaseUpdate 400 r0 ∧
      x.status = Status.processing ∧
      x.processing_started_at = some 400 ∧
      x.retry_count = r0.retry_count + 1) ∧
    (dequeue_n 2 400 [sampleRow]).1.Pairwise (fun a b => a.created_at ≤ b.created_at) ∧
    (∀ r ∈ [sampleRow], r.request_id ∉ ((dequeue_n 2 400 [sampleRow]).1).map Row.request_id →
      r ∈ (dequeue_n 2 400 [sampleRow]).2) :=
  dequeue_n_spec 2 400 [sampleRow] (by decide)

/-- C4 counterexample: an account that is unavailable only because its
balance is below min_gas_balance (no failure cooldown, no pending sends)
has its skip recorded as pending_transaction, while the classification
demanded by the claim is insufficient_gas. -/
theorem skip_reason_cex :
    (is_available 100 0 20 5 sampleAccount).1 = false ∧
    recordedSkipReason 100 0 20 5 sampleAccount = some SkipReason.pendingTransaction ∧
    specSkipReason 100 0 20 5 sampleAccount = some SkipReason.insufficientGas ∧
    SkipReason.pendingTransaction ≠ SkipReason.insufficientGas := by
  decide

/-- C4 (amended): whenever is_available returns false,
next_available_batch records the constant reason pending_transaction
produced by determine_skip_reason, whatever the actual cause of the
unavailability. -/
theorem skip_reason_constant (now rpc : Nat) (th : Int) (mg : Nat) (s : AccountState)
    (h : (is_available now rpc th mg s).1 = false) :
    recordedSkipReason now rpc th mg s = some SkipReason.pendingTransaction := by
  unfold recordedSkipReason
  rw [h]
  rfl

/-- C4 witness: the amended theorem applied to the insufficient-gas
account. -/
theorem skip_reason_constant_witness :
    recordedSkipReason 100 0 20 5 sampleAccount = some SkipReason.pendingTransaction :=
  skip_reason_constant 100 0 20 5 sampleAccount (by decide)

/-- C5: starting from any table satisfying the primary key invariant and
the retry bound, every sequence of QueueStore operations preserves
retry_count at most max_retries: enqueue inserts with retry_count zero,
dequeue increments only rows strictly below the ceiling, and
mark_fulfilled, mark_failed and requeue never change retry_count (stated
as equality of the retry_count column before and after each). -/
theorem retry_count_bounded (ops : List (Nat × QueueOp)) (t : Table)
    (hu : UniqueIds t) (hr : RetryInv t) (rid : Nat) (err : String) (now : Nat) :
    RetryInv (applyOps ops t) ∧
    (mark_fulfilled rid now t).map Row.retry_count = t.map Row.retry_count ∧
    (mark_failed rid err now t).map Row.retry_count = t.map Row.retry_count ∧
    (requeue_request rid t).map Row.retry_count = t.map Row.retry_count := by
  refine ⟨(applyOps_preserves ops t hu hr).2, ?_, ?_, ?_⟩
  · unfold mark_fulfilled
    exact retry_proj_map rid t _ (fun r => rfl)
  · unfold mark_failed
    exact retry_proj_map rid t _ (fun r => rfl)
  · unfold requeue_request
    exact retry_proj_map rid t _ (fun r => rfl)

/-- C5 witness: the theorem applied to a singleton table under an
operation sequence that enqueues, dequeues and fails a request. -/
theorem retry_count_bounded_witness :
    RetryInv (applyOps [(11, QueueOp.enqueue 2 "0xc2" "local"), (12, QueueOp.dequeue 5),
      (13, QueueOp.markFailed 2 "rpc down"), (14, QueueOp.markFulfilled 1)] [sampleRow]) ∧
    (mark_fulfilled 1 15 [sampleRow]).map Row.retry_count =
      [sampleRow].map Row.retry_count ∧
    (mark_failed 1 "rpc down" 15 [sampleRow]).map Row.retry_count =
      [sampleRow].map Row.retry_count ∧
    (requeue_request 1 [sampleRow]).map Row.retry_count =
      [sampleRow].map Row.retry_count :=
  retry_count_bounded [(11, QueueOp.enqueue 2 "0xc2" "local"), (12, QueueOp.dequeue 5),
    (13, QueueOp.markFailed 2 "rpc down"), (14, QueueOp.markFulfilled 1)] [sampleRow]
    (by decide) (by decide) 1 "rpc down" 15

/-- C6: mark_failed on an existing row sets status to failed when
retry_count has reached max_retries and back to pending otherwise, and in
both cases records the error message in last_error, clears
processing_started_at and refreshes updated_at. -/
theorem mark_failed_spec (t : Table) (rid : Nat) (err : String) (now : Nat) (r : Row)
    (h : getRow t rid = some r) :
    getRow (mark_failed rid err now t) rid =
      some { r with
        status := if r.retry_count ≥ r.max_retries then Status.failed else Status.pending
        last_error := some err
        processing_started_at := none
        updated_at := now } :=
  getRow_mark_failed err now h

/-- C6 witness: the theorem applied to a processing row at the retry
ceiling, which becomes failed, with the error recorded and the lease
cleared. -/
theorem mark_failed_spec_witness :
    getRow (mark_failed 1 "boom" 30
      [{ sampleRow with
         status := Status.processing
         retry_count := 5
         processing_started_at := some 12 }]) 1 =
      some { sampleRow with
             status := Status.failed
             retry_count := 5
             last_error := some "boom"
             processing_started_at := none
             updated_at := 30 } := by
  have h := mark_failed_spec
    [{ sampleRow with
       status := Status.processing
       retry_count := 5
       processing_started_at := some 12 }] 1 "boom" 30
    { sampleRow with
      status := Status.processing
      retry_count := 5
      processing_started_at := some 12 } (by decide)
  simpa using h

/-- C7: enqueue is idempotent: the inserted row has status pending and
retry_count zero and is the only row with its request_id when no row
existed, enqueueing the same request_id onto a table that already holds it
leaves the table unchanged whatever the current status of the row, and a
double enqueue equals a single enqueue. -/
theorem enqueue_idempotent (t : Table) (rid : Nat) (ca network : String)
    (now now2 : Nat) (r : Row) :
    enqueue_request rid ca network now2 (enqueue_request rid ca network now t) =
      enqueue_request rid ca network now t ∧
    (freshRow rid ca network now).status = Status.pending ∧
    (freshRow rid ca network now).retry_count = 0 ∧
    (getRow t rid = none →
      getRow (enqueue_request rid ca network now t) rid =
        some (freshRow rid ca network now) ∧
      (enqueue_request rid ca network now t).countP
        (fun x => decide (x.request_id = rid)) = 1) ∧
    (getRow t rid = some r → enqueue_request rid ca network now t = t) :=
  ⟨enqueue_twice t rid ca network now now2, rfl, rfl,
    fun h => getRow_enqueue_none ca network now h,
    fun h => enqueue_some ca network now h⟩

/-- C7 witness: the theorem applied to the empty table for the insertion
part and to a table already holding the row for the no-op part. -/
theorem enqueue_idempotent_witness :
    getRow (enqueue_request 1 "0xc1" "local" 10 []) 1 =
      some (freshRow 1 "0xc1" "local" 10) ∧
    enqueue_request 1 "0xc1" "local" 11 [sampleRow] = [sampleRow] :=
  ⟨((enqueue_idempotent [] 1 "0xc1" "local" 10 11 sampleRow).2.2.2.1 (by decide)).1,
   (enqueue_idempotent [sampleRow] 1 "0xc1" "local" 11 12 sampleRow).2.2.2.2 (by decide)⟩

/-- C8 counterexample: the declared interface and the call constructed in
the source carry three parameters (requestId, randomness, proof), not the
two the claim states: the argument lists have different lengths, the
argument encodings differ, and the solidity signatures from which the
selectors derive differ. -/
theorem fulfill_params_cex :
    (fulfillRandomnessArgs 0 0).length = 3 ∧
    (specFulfillRandomnessArgs 0 0).length = 2 ∧
    fulfillRandomnessBody 0 0 ≠ specFulfillRandomnessBody 0 0 ∧
    fulfillRandomnessSig ≠ specFulfillRandomnessSig := by
  decide

/-- C8 (amended): the per-request fulfillment call data is the ABI
encoding of fulfillRandomness(bytes32 requestId, uint256 randomness,
bytes proof) with the request id, the random value and an empty proof:
the encoded argument tuple is the two value words followed by the offset
word 0x60 and the zero length word of the empty proof. -/
theorem fulfill_encoding_three_params (requestId randomness : Nat) :
    fulfillRandomnessArgs requestId randomness =
      [AbiValue.bytes32 requestId, AbiValue.uint256 randomness, AbiValue.dynBytes []] ∧
    fulfillRandomnessBody requestId randomness =
      word requestId ++ word randomness ++ word 96 ++ word 0 :=
  ⟨rfl, fulfillRandomnessBody_eq requestId randomness⟩

/-- C9: is_available returns true exactly when there is no failure within
the last 30 seconds, the pending transaction count is below the
threshold, and the balance after the conditional 60 second cache refresh
is at least min_gas_balance; and a last_failure at least 30 seconds old
is cleared by the call. -/
theorem is_available_spec (now rpc : Nat) (th : Int) (mg : Nat) (s : AccountState) :
    ((is_available now rpc th mg s).1 = true ↔
      ((∀ lf, s.last_failure = some lf → 30 ≤ now - lf) ∧
       s.pending_tx_count < th ∧
       mg ≤ effectiveBalance now rpc s)) ∧
    (∀ lf, s.last_failure = some lf → 30 ≤ now - lf →
      (is_available now rpc th mg s).2.last_failure = none) :=
  ⟨is_available_true_iff now rpc th mg s,
   fun lf hlf hold => is_available_clears_failure now rpc th mg s lf hlf hold⟩

/-- C9 witness: the theorem applied to an account with an expired failure
and a fresh sufficient balance: the account is available and the stale
failure is cleared. -/
theorem is_available_spec_witness :
    (is_available 50 100 20 5
      { sampleAccount with
        last_failure := some 0
        cached_balance := 7
        last_balance_check := some 40 }).1 = true ∧
    (is_available 50 100 20 5
      { sampleAccount with
        last_failure := some 0
        cached_balance := 7
        last_balance_check := some 40 }).2.last_failure = none := by
  have h := is_available_spec 50 100 20 5
    { sampleAccount with
      last_failure := some 0
      cached_balance := 7
      last_balance_check := some 40 }
  refine ⟨h.1.mpr ⟨?_, by decide, by decide⟩, h.2 0 rfl (by decide)⟩
  intro lf hlf
  cases hlf
  decide

/-- C10: the pending transaction counter never becomes negative: from any
state with a non-negative counter, every sequence of
mark_transaction_sent, mark_transaction_confirmed and
mark_transaction_failed calls, however unbalanced, keeps
pending_tx_count at least zero, because the two decrements are guarded
by a positivity test. -/
theorem pending_tx_count_nonneg (ops : List (Nat × RelayerOp)) (s : AccountState)
    (h : 0 ≤ s.pending_tx_count) :
    0 ≤ (applyRelayerOps ops s).pending_tx_count := by
  induction ops generalizing s with
  | nil => exact h
  | cons p ps ih => exact ih _ (relayer_step_nonneg p.1 p.2 s h)

/-- C10 witness: the theorem applied to an unbalanced sequence with more
confirmations and failures than sends. -/
theorem pending_tx_count_nonneg_witness :
    0 ≤ (applyRelayerOps [(0, RelayerOp.confirmed), (1, RelayerOp.failed),
      (2, RelayerOp.sent), (3, RelayerOp.confirmed), (4, RelayerOp.confirmed)]
      sampleAccount).pending_tx_count :=
  pending_tx_count_nonneg [(0, RelayerOp.confirmed), (1, RelayerOp.failed),
    (2, RelayerOp.sent), (3, RelayerOp.confirmed), (4, RelayerOp.confirmed)]
    sampleAccount (by decide)

end VRFOracle
